import Mathlib

/-!
Verification of the proposal-voting canister (`final_project_backend/src/lib.rs`).

The Rust source keeps a `StableBTreeMap<u64, Proposal>`; we embed the map as a
function `Nat → Option Proposal` and each exposed operation as a pure function
from the caller identity and the current store to a result together with the
updated store.  `candid::Principal` is embedded as an opaque `Nat`.
-/

namespace ICPVote

/-- `candid::Principal`, an opaque caller identity. -/
abbrev Principal := Nat

/-- `enum Choice { Approve, Reject, Pass }` -/
inductive Choice where
  | Approve
  | Reject
  | Pass
deriving DecidableEq

/-- `enum VoteError { AlreadyVoted, ProposalIsNotActive, NoSuchProposal, AccessRejected, UpdateError }` -/
inductive VoteError where
  | AlreadyVoted
  | ProposalIsNotActive
  | NoSuchProposal
  | AccessRejected
  | UpdateError
deriving DecidableEq

/-- `struct Proposal` of the source, field for field.  The `i32` counters are
embedded as `Int`. -/
structure Proposal where
  description : String
  approve : Int
  reject : Int
  pass : Int
  is_active : Bool
  voted : List Principal
  owner : Principal
deriving DecidableEq

/-- `struct CreateProposal { description, is_active }` -/
structure CreateProposal where
  description : String
  is_active : Bool
deriving DecidableEq

/-- The stable map `PROPOSAL_MAP`, embedded as a partial function from keys. -/
abbrev Store := Nat → Option Proposal

/-- `StableBTreeMap::insert`: stores `v` at `key` and returns the previous
value at that key, if any. -/
def storeInsert (s : Store) (key : Nat) (v : Proposal) : Option Proposal × Store :=
  (s key, fun k => if k = key then some v else s k)

/-- `fn get_proposal(key) -> Option<Proposal>` -/
def get_proposal (s : Store) (key : Nat) : Option Proposal :=
  s key

/-- `fn create_proposal(key, proposal) -> Option<Proposal>`: builds a fresh
record (zero counters, empty voted, owner = caller) and inserts it,
returning the previous record at the key. -/
def create_proposal (caller : Principal) (s : Store) (key : Nat)
    (proposal : CreateProposal) : Option Proposal × Store :=
  let value : Proposal :=
    { description := proposal.description
      approve := 0
      pass := 0
      reject := 0
      is_active := proposal.is_active
      voted := []
      owner := caller }
  storeInsert s key value

/-- `fn edit_proposal(key, proposal) -> Result<(), VoteError>` -/
def edit_proposal (caller : Principal) (s : Store) (key : Nat)
    (proposal : CreateProposal) : Except VoteError Unit × Store :=
  match s key with
  | none => (Except.error VoteError.NoSuchProposal, s)
  | some old_proposal =>
    if old_proposal.owner ≠ caller then
      (Except.error VoteError.AccessRejected, s)
    else
      let value : Proposal :=
        { description := proposal.description
          approve := old_proposal.approve
          reject := old_proposal.reject
          pass := old_proposal.pass
          is_active := proposal.is_active
          voted := old_proposal.voted
          owner := old_proposal.owner }
      match storeInsert s key value with
      | (some _, s2) => (Except.ok (), s2)
      | (none, s2) => (Except.error VoteError.UpdateError, s2)

/-- `fn end_proposal(key) -> Result<(), VoteError>` -/
def end_proposal (caller : Principal) (s : Store) (key : Nat) :
    Except VoteError Unit × Store :=
  match s key with
  | none => (Except.error VoteError.NoSuchProposal, s)
  | some old_proposal =>
    if old_proposal.owner ≠ caller then
      (Except.error VoteError.AccessRejected, s)
    else
      match storeInsert s key { old_proposal with is_active := false } with
      | (some _, s2) => (Except.ok (), s2)
      | (none, s2) => (Except.error VoteError.UpdateError, s2)

/-- `fn vote(key, choice) -> Result<(), VoteError>` -/
def vote (caller : Principal) (s : Store) (key : Nat) (choice : Choice) :
    Except VoteError Unit × Store :=
  match s key with
  | none => (Except.error VoteError.NoSuchProposal, s)
  | some proposal =>
    if proposal.voted.contains caller then
      (Except.error VoteError.AlreadyVoted, s)
    else if !proposal.is_active then
      (Except.error VoteError.ProposalIsNotActive, s)
    else
      let updated : Proposal :=
        match choice with
        | Choice.Approve => { proposal with approve := proposal.approve + 1 }
        | Choice.Pass => { proposal with pass := proposal.pass - 1 }
        | Choice.Reject => { proposal with reject := proposal.reject + 1 }
      match storeInsert s key { updated with voted := updated.voted ++ [caller] } with
      | (some _, s2) => (Except.ok (), s2)
      | (none, s2) => (Except.error VoteError.UpdateError, s2)

/-- The record written by a successful `vote`, used to state lemmas. -/
def voteUpdate (p : Proposal) (caller : Principal) (choice : Choice) : Proposal :=
  match choice with
  | Choice.Approve => { p with approve := p.approve + 1, voted := p.voted ++ [caller] }
  | Choice.Pass => { p with pass := p.pass - 1, voted := p.voted ++ [caller] }
  | Choice.Reject => { p with reject := p.reject + 1, voted := p.voted ++ [caller] }

section OperationLemmas

variable (caller : Principal) (s : Store) (key : Nat)

theorem edit_proposal_absent (cp : CreateProposal) (h : s key = none) :
    edit_proposal caller s key cp = (Except.error VoteError.NoSuchProposal, s) := by
  simp [edit_proposal, h]

theorem edit_proposal_notOwner (cp : CreateProposal) (p : Proposal)
    (h : s key = some p) (ho : p.owner ≠ caller) :
    edit_proposal caller s key cp = (Except.error VoteError.AccessRejected, s) := by
  simp [edit_proposal, h, ho]

theorem edit_proposal_ok (cp : CreateProposal) (p : Proposal)
    (h : s key = some p) (ho : p.owner = caller) :
    edit_proposal caller s key cp =
      (Except.ok (), fun k => if k = key then
        some { description := cp.description, approve := p.approve, reject := p.reject,
               pass := p.pass, is_active := cp.is_active, voted := p.voted,
               owner := p.owner } else s k) := by
  simp [edit_proposal, storeInsert, h, ho]

theorem end_proposal_absent (h : s key = none) :
    end_proposal caller s key = (Except.error VoteError.NoSuchProposal, s) := by
  simp [end_proposal, h]

theorem end_proposal_notOwner (p : Proposal)
    (h : s key = some p) (ho : p.owner ≠ caller) :
    end_proposal caller s key = (Except.error VoteError.AccessRejected, s) := by
  simp [end_proposal, h, ho]

theorem end_proposal_ok (p : Proposal)
    (h : s key = some p) (ho : p.owner = caller) :
    end_proposal caller s key =
      (Except.ok (), fun k => if k = key then
        some { p with is_active := false } else s k) := by
  simp [end_proposal, storeInsert, h, ho]

theorem vote_absent (choice : Choice) (h : s key = none) :
    vote caller s key choice = (Except.error VoteError.NoSuchProposal, s) := by
  simp [vote, h]

theorem vote_alreadyVoted (choice : Choice) (p : Proposal)
    (h : s key = some p) (hv : caller ∈ p.voted) :
    vote caller s key choice = (Except.error VoteError.AlreadyVoted, s) := by
  simp [vote, h, hv]

theorem vote_inactive (choice : Choice) (p : Proposal)
    (h : s key = some p) (hv : caller ∉ p.voted)
    (ha : p.is_active = false) :
    vote caller s key choice = (Except.error VoteError.ProposalIsNotActive, s) := by
  simp [vote, h, hv, ha]

theorem vote_ok (choice : Choice) (p : Proposal)
    (h : s key = some p) (hv : caller ∉ p.voted)
    (ha : p.is_active = true) :
    vote caller s key choice =
      (Except.ok (), fun k => if k = key then
        some (voteUpdate p caller choice) else s k) := by
  cases choice <;> simp [vote, storeInsert, voteUpdate, h, hv, ha]

end OperationLemmas

/-- C1: the claim that no exposed operation ever changes a proposal's
`is_active` from `false` back to `true` is refuted: `edit_proposal` writes the
caller-supplied activity flag, so the owner of a closed proposal can set
`is_active = true` again. Concrete input: a store holding a closed proposal at
key 0 with owner 1, edited by caller 1 with flag `true`. -/
theorem edit_reactivates_closed_proposal :
    (((fun k => if k = 0 then some (Proposal.mk "d" 0 0 0 false [] 1) else none : Store) 0).map
      Proposal.is_active = some false) ∧
    (edit_proposal 1 (fun k => if k = 0 then some (Proposal.mk "d" 0 0 0 false [] 1) else none)
      0 (CreateProposal.mk "d" true)).1 = Except.ok () ∧
    (((edit_proposal 1 (fun k => if k = 0 then some (Proposal.mk "d" 0 0 0 false [] 1) else none)
      0 (CreateProposal.mk "d" true)).2 0).map Proposal.is_active = some true) :=
  ⟨rfl, rfl, rfl⟩

/-- C1 (amended): `end_proposal` and `vote` never change `is_active` from
`false` to `true`; `edit_proposal` (on success) and `create_proposal` instead
write the caller-supplied activity flag, which can reactivate a closed
proposal. -/
theorem is_active_monotone_end_vote (caller : Principal) (s : Store) (key k : Nat)
    (choice : Choice) (cp : CreateProposal)
    (h : (s k).map Proposal.is_active = some false) :
    ((end_proposal caller s key).2 k).map Proposal.is_active = some false ∧
    ((vote caller s key choice).2 k).map Proposal.is_active = some false ∧
    ((edit_proposal caller s key cp).1 = Except.ok () →
      ((edit_proposal caller s key cp).2 key).map Proposal.is_active = some cp.is_active) ∧
    (create_proposal caller s key cp).2 key =
      some (Proposal.mk cp.description 0 0 0 cp.is_active [] caller) := by
  refine ⟨?_, ?_, ?_, by simp [create_proposal, storeInsert]⟩
  · rcases hsk : s key with _ | old
    · rw [end_proposal_absent caller s key hsk]; exact h
    · by_cases ho : old.owner = caller
      · rw [end_proposal_ok caller s key old hsk ho]
        by_cases hk : k = key
        · simp [hk]
        · simpa [hk] using h
      · rw [end_proposal_notOwner caller s key old hsk (by simpa using ho)]; exact h
  · rcases hsk : s key with _ | old
    · rw [vote_absent caller s key choice hsk]; exact h
    · by_cases hv : caller ∈ old.voted
      · rw [vote_alreadyVoted caller s key choice old hsk hv]; exact h
      · cases ha : old.is_active with
        | false => rw [vote_inactive caller s key choice old hsk hv ha]; exact h
        | true =>
          rw [vote_ok caller s key choice old hsk hv ha]
          by_cases hk : k = key
          · subst hk
            rw [hsk] at h
            simp at h
            rw [h] at ha
            cases ha
          · simpa [hk] using h
  · rcases hsk : s key with _ | old
    · intro hok
      rw [edit_proposal_absent caller s key cp hsk] at hok
      cases hok
    · by_cases ho : old.owner = caller
      · rw [edit_proposal_ok caller s key cp old hsk ho]
        intro _
        simp
      · intro hok
        rw [edit_proposal_notOwner caller s key cp old hsk (by simpa using ho)] at hok
        cases hok

/-- Witness for `is_active_monotone_end_vote` at a concrete closed proposal. -/
theorem is_active_monotone_end_vote_witness :
    (((fun k => if k = 0 then some (Proposal.mk "d" 0 0 0 false [] 1) else none : Store) 0).map
      Proposal.is_active = some false) ∧
    (((end_proposal 2 (fun k => if k = 0 then some (Proposal.mk "d" 0 0 0 false [] 1) else none)
        0).2 0).map Proposal.is_active = some false ∧
      ((vote 2 (fun k => if k = 0 then some (Proposal.mk "d" 0 0 0 false [] 1) else none)
        0 Choice.Approve).2 0).map Proposal.is_active = some false ∧
      ((edit_proposal 2 (fun k => if k = 0 then some (Proposal.mk "d" 0 0 0 false [] 1) else none)
        0 (CreateProposal.mk "x" true)).1 = Except.ok () →
        ((edit_proposal 2 (fun k => if k = 0 then some (Proposal.mk "d" 0 0 0 false [] 1) else none)
          0 (CreateProposal.mk "x" true)).2 0).map Proposal.is_active = some true) ∧
      (create_proposal 2 (fun k => if k = 0 then some (Proposal.mk "d" 0 0 0 false [] 1) else none)
        0 (CreateProposal.mk "x" true)).2 0 =
        some (Proposal.mk "x" 0 0 0 true [] 2)) :=
  ⟨rfl, is_active_monotone_end_vote 2
    (fun k => if k = 0 then some (Proposal.mk "d" 0 0 0 false [] 1) else none)
    0 0 Choice.Approve (CreateProposal.mk "x" true) rfl⟩

/-- C2: after the existence check, the already-voted check precedes the
activity check (`AlreadyVoted` is reported even on an inactive proposal), and
two successive votes by one caller on an existing active proposal yield
success then `AlreadyVoted`, the second call leaving the store unchanged and
the counters having moved exactly once. -/
theorem vote_check_order_and_double_vote (caller : Principal) (s : Store)
    (key : Nat) (p : Proposal) (c c' : Choice) (h : s key = some p) :
    (caller ∈ p.voted → vote caller s key c = (Except.error VoteError.AlreadyVoted, s)) ∧
    (p.is_active = true → caller ∉ p.voted →
      (vote caller s key c).1 = Except.ok () ∧
      (vote caller (vote caller s key c).2 key c').1 = Except.error VoteError.AlreadyVoted ∧
      (vote caller (vote caller s key c).2 key c').2 = (vote caller s key c).2 ∧
      ((vote caller s key c).2 key).map (fun q => q.approve + q.reject - q.pass) =
        some (p.approve + p.reject - p.pass + 1)) := by
  constructor
  · intro hv
    exact vote_alreadyVoted caller s key c p h hv
  · intro ha hv
    rw [vote_ok caller s key c p h hv ha]
    have hmem : caller ∈ (voteUpdate p caller c).voted := by
      cases c <;> simp [voteUpdate]
    have hs1 : (fun k => if k = key then some (voteUpdate p caller c) else s k : Store) key =
        some (voteUpdate p caller c) := by simp
    refine ⟨rfl, ?_, ?_, ?_⟩
    · rw [vote_alreadyVoted caller _ key c' (voteUpdate p caller c) hs1 hmem]
    · rw [vote_alreadyVoted caller _ key c' (voteUpdate p caller c) hs1 hmem]
    · cases c <;> simp [voteUpdate] <;> ring

/-- Witness for `vote_check_order_and_double_vote`: fresh caller 5 votes twice
on an active proposal at key 3. -/
theorem vote_check_order_and_double_vote_witness :
    ((fun k => if k = 3 then some (Proposal.mk "d" 0 0 0 true [] 1) else none : Store) 3 =
      some (Proposal.mk "d" 0 0 0 true [] 1)) ∧
    ((5 : Principal) ∈ (Proposal.mk "d" 0 0 0 true ([] : List Principal) 1).voted →
      vote 5 (fun k => if k = 3 then some (Proposal.mk "d" 0 0 0 true [] 1) else none) 3
        Choice.Approve =
      (Except.error VoteError.AlreadyVoted,
        fun k => if k = 3 then some (Proposal.mk "d" 0 0 0 true [] 1) else none)) ∧
    ((Proposal.mk "d" 0 0 0 true ([] : List Principal) 1).is_active = true →
      (5 : Principal) ∉ (Proposal.mk "d" 0 0 0 true ([] : List Principal) 1).voted →
      (vote 5 (fun k => if k = 3 then some (Proposal.mk "d" 0 0 0 true [] 1) else none) 3
        Choice.Approve).1 = Except.ok () ∧
      (vote 5 (vote 5 (fun k => if k = 3 then some (Proposal.mk "d" 0 0 0 true [] 1) else none) 3
        Choice.Approve).2 3 Choice.Reject).1 = Except.error VoteError.AlreadyVoted ∧
      (vote 5 (vote 5 (fun k => if k = 3 then some (Proposal.mk "d" 0 0 0 true [] 1) else none) 3
        Choice.Approve).2 3 Choice.Reject).2 =
        (vote 5 (fun k => if k = 3 then some (Proposal.mk "d" 0 0 0 true [] 1) else none) 3
          Choice.Approve).2 ∧
      ((vote 5 (fun k => if k = 3 then some (Proposal.mk "d" 0 0 0 true [] 1) else none) 3
        Choice.Approve).2 3).map (fun q => q.approve + q.reject - q.pass) = some (0 + 0 - 0 + 1)) :=
  ⟨rfl, vote_check_order_and_double_vote 5
    (fun k => if k = 3 then some (Proposal.mk "d" 0 0 0 true [] 1) else none)
    3 (Proposal.mk "d" 0 0 0 true [] 1) Choice.Approve Choice.Reject rfl⟩

/-- C3: a successful vote changes exactly one counter according to the choice
(Approve and Reject increment, Pass decrements), appends the caller to
`voted`, writes the full record back, and leaves description, owner and
`is_active` unchanged. -/
theorem vote_success_updates_one_counter (caller : Principal) (s : Store) (key : Nat)
    (p : Proposal) (choice : Choice) (h : s key = some p)
    (hv : caller ∉ p.voted) (ha : p.is_active = true) :
    (vote caller s key choice).1 = Except.ok () ∧
    ∃ q, (vote caller s key choice).2 key = some q ∧
      q.description = p.description ∧ q.owner = p.owner ∧ q.is_active = p.is_active ∧
      q.voted = p.voted ++ [caller] ∧
      (match choice with
        | Choice.Approve => q.approve = p.approve + 1 ∧ q.reject = p.reject ∧ q.pass = p.pass
        | Choice.Reject => q.reject = p.reject + 1 ∧ q.approve = p.approve ∧ q.pass = p.pass
        | Choice.Pass => q.pass = p.pass - 1 ∧ q.approve = p.approve ∧ q.reject = p.reject) := by
  rw [vote_ok caller s key choice p h hv ha]
  refine ⟨rfl, voteUpdate p caller choice, by simp, ?_⟩
  cases choice <;> simp [voteUpdate]

/-- Witness for `vote_success_updates_one_counter`: caller 7, Pass vote on an
active proposal at key 2. -/
theorem vote_success_updates_one_counter_witness :
    ((fun k => if k = 2 then some (Proposal.mk "d" 4 5 6 true [8] 1) else none : Store) 2 =
      some (Proposal.mk "d" 4 5 6 true [8] 1)) ∧
    (7 : Principal) ∉ (Proposal.mk "d" 4 5 6 true ([8] : List Principal) 1).voted ∧
    (Proposal.mk "d" 4 5 6 true ([8] : List Principal) 1).is_active = true ∧
    ((vote 7 (fun k => if k = 2 then some (Proposal.mk "d" 4 5 6 true [8] 1) else none) 2
        Choice.Pass).1 = Except.ok () ∧
      ∃ q, (vote 7 (fun k => if k = 2 then some (Proposal.mk "d" 4 5 6 true [8] 1) else none) 2
          Choice.Pass).2 2 = some q ∧
        q.description = (Proposal.mk "d" 4 5 6 true ([8] : List Principal) 1).description ∧
        q.owner = (Proposal.mk "d" 4 5 6 true ([8] : List Principal) 1).owner ∧
        q.is_active = (Proposal.mk "d" 4 5 6 true ([8] : List Principal) 1).is_active ∧
        q.voted = (Proposal.mk "d" 4 5 6 true ([8] : List Principal) 1).voted ++ [7] ∧
        (q.pass = (Proposal.mk "d" 4 5 6 true ([8] : List Principal) 1).pass - 1 ∧
          q.approve = (Proposal.mk "d" 4 5 6 true ([8] : List Principal) 1).approve ∧
          q.reject = (Proposal.mk "d" 4 5 6 true ([8] : List Principal) 1).reject)) :=
  ⟨rfl, by decide, rfl,
    vote_success_updates_one_counter 7
      (fun k => if k = 2 then some (Proposal.mk "d" 4 5 6 true [8] 1) else none)
      2 (Proposal.mk "d" 4 5 6 true [8] 1) Choice.Pass rfl (by decide) rfl⟩

/-- C4: `edit_proposal` returns `NoSuchProposal` on an absent key,
`AccessRejected` when the caller is not the stored owner, and otherwise writes
a record that keeps owner, voted and all three counters, updating only the
description and activity flag. -/
theorem edit_proposal_cases (caller : Principal) (s : Store) (key : Nat)
    (cp : CreateProposal) :
    (s key = none → edit_proposal caller s key cp = (Except.error VoteError.NoSuchProposal, s)) ∧
    (∀ p, s key = some p → p.owner ≠ caller →
      edit_proposal caller s key cp = (Except.error VoteError.AccessRejected, s)) ∧
    (∀ p, s key = some p → p.owner = caller →
      (edit_proposal caller s key cp).1 = Except.ok () ∧
      (edit_proposal caller s key cp).2 key =
        some (Proposal.mk cp.description p.approve p.reject p.pass cp.is_active
          p.voted p.owner)) := by
  refine ⟨fun h => edit_proposal_absent caller s key cp h,
    fun p h ho => edit_proposal_notOwner caller s key cp p h ho,
    fun p h ho => ?_⟩
  rw [edit_proposal_ok caller s key cp p h ho]
  exact ⟨rfl, by simp⟩

/-- Witness for `edit_proposal_cases`: owner 1 edits the proposal at key 4. -/
theorem edit_proposal_cases_witness :
    ((fun k => if k = 4 then some (Proposal.mk "old" 2 3 4 true [9] 1) else none : Store) 4 =
      some (Proposal.mk "old" 2 3 4 true [9] 1)) ∧
    (Proposal.mk "old" 2 3 4 true ([9] : List Principal) 1).owner = 1 ∧
    ((edit_proposal 1 (fun k => if k = 4 then some (Proposal.mk "old" 2 3 4 true [9] 1) else none)
        4 (CreateProposal.mk "new" false)).1 = Except.ok () ∧
      (edit_proposal 1 (fun k => if k = 4 then some (Proposal.mk "old" 2 3 4 true [9] 1) else none)
        4 (CreateProposal.mk "new" false)).2 4 = some (Proposal.mk "new" 2 3 4 false [9] 1)) :=
  ⟨rfl, rfl,
    (edit_proposal_cases 1
      (fun k => if k = 4 then some (Proposal.mk "old" 2 3 4 true [9] 1) else none)
      4 (CreateProposal.mk "new" false)).2.2 (Proposal.mk "old" 2 3 4 true [9] 1) rfl rfl⟩

/-- C5: `end_proposal` by the owner on an existing proposal succeeds, sets
`is_active := false` and leaves every other field unchanged; a second call by
the owner succeeds again and leaves the record exactly the same. -/
theorem end_proposal_closes_idempotently (caller : Principal) (s : Store) (key : Nat)
    (p : Proposal) (h : s key = some p) (ho : p.owner = caller) :
    (end_proposal caller s key).1 = Except.ok () ∧
    (end_proposal caller s key).2 key = some { p with is_active := false } ∧
    (end_proposal caller (end_proposal caller s key).2 key).1 = Except.ok () ∧
    (end_proposal caller (end_proposal caller s key).2 key).2 key =
      some { p with is_active := false } := by
  rw [end_proposal_ok caller s key p h ho]
  have h2 : (fun k => if k = key then some { p with is_active := false } else s k : Store) key =
      some { p with is_active := false } := by simp
  rw [end_proposal_ok caller _ key { p with is_active := false } h2 ho]
  simp

/-- Witness for `end_proposal_closes_idempotently`: owner 1 closes key 6 twice. -/
theorem end_proposal_closes_idempotently_witness :
    ((fun k => if k = 6 then some (Proposal.mk "d" 1 2 3 true [4] 1) else none : Store) 6 =
      some (Proposal.mk "d" 1 2 3 true [4] 1)) ∧
    (Proposal.mk "d" 1 2 3 true ([4] : List Principal) 1).owner = 1 ∧
    ((end_proposal 1 (fun k => if k = 6 then some (Proposal.mk "d" 1 2 3 true [4] 1) else none)
        6).1 = Except.ok () ∧
      (end_proposal 1 (fun k => if k = 6 then some (Proposal.mk "d" 1 2 3 true [4] 1) else none)
        6).2 6 = some (Proposal.mk "d" 1 2 3 false [4] 1) ∧
      (end_proposal 1 (end_proposal 1
        (fun k => if k = 6 then some (Proposal.mk "d" 1 2 3 true [4] 1) else none) 6).2 6).1 =
        Except.ok () ∧
      (end_proposal 1 (end_proposal 1
        (fun k => if k = 6 then some (Proposal.mk "d" 1 2 3 true [4] 1) else none) 6).2 6).2 6 =
        some (Proposal.mk "d" 1 2 3 false [4] 1)) :=
  ⟨rfl, rfl,
    end_proposal_closes_idempotently 1
      (fun k => if k = 6 then some (Proposal.mk "d" 1 2 3 true [4] 1) else none)
      6 (Proposal.mk "d" 1 2 3 true [4] 1) rfl rfl⟩

/-- C6: whenever an operation fails one of the four checks (`NoSuchProposal`,
`AccessRejected`, `AlreadyVoted`, `ProposalIsNotActive`), the store is left
unchanged; in particular a non-owner's `edit_proposal` or `end_proposal`
never mutates the stored record. -/
theorem failed_checks_leave_store_unchanged (caller : Principal) (s : Store) (key : Nat)
    (cp : CreateProposal) (choice : Choice) :
    (∀ e, e ≠ VoteError.UpdateError → (edit_proposal caller s key cp).1 = Except.error e →
      (edit_proposal caller s key cp).2 = s) ∧
    (∀ e, e ≠ VoteError.UpdateError → (end_proposal caller s key).1 = Except.error e →
      (end_proposal caller s key).2 = s) ∧
    (∀ e, e ≠ VoteError.UpdateError → (vote caller s key choice).1 = Except.error e →
      (vote caller s key choice).2 = s) ∧
    (∀ p, s key = some p → p.owner ≠ caller →
      (edit_proposal caller s key cp).2 = s ∧ (end_proposal caller s key).2 = s) := by
  refine ⟨?_, ?_, ?_, fun p h ho => ?_⟩
  · intro e _ _
    rcases hsk : s key with _ | old
    · rw [edit_proposal_absent caller s key cp hsk]
    · by_cases ho : old.owner = caller
      · rw [edit_proposal_ok caller s key cp old hsk ho] at *
        simp_all
      · rw [edit_proposal_notOwner caller s key cp old hsk (by simpa using ho)]
  · intro e _ _
    rcases hsk : s key with _ | old
    · rw [end_proposal_absent caller s key hsk]
    · by_cases ho : old.owner = caller
      · rw [end_proposal_ok caller s key old hsk ho] at *
        simp_all
      · rw [end_proposal_notOwner caller s key old hsk (by simpa using ho)]
  · intro e _ _
    rcases hsk : s key with _ | old
    · rw [vote_absent caller s key choice hsk]
    · by_cases hv : caller ∈ old.voted
      · rw [vote_alreadyVoted caller s key choice old hsk hv]
      · cases ha : old.is_active with
        | false => rw [vote_inactive caller s key choice old hsk hv ha]
        | true =>
          rw [vote_ok caller s key choice old hsk hv ha] at *
          simp_all
  · constructor
    · rw [edit_proposal_notOwner caller s key cp p h ho]
    · rw [end_proposal_notOwner caller s key p h ho]

/-- Witness for `failed_checks_leave_store_unchanged`: non-owner 2 fails to
edit key 0 and the store is unchanged. -/
theorem failed_checks_leave_store_unchanged_witness :
    (edit_proposal 2 (fun k => if k = 0 then some (Proposal.mk "d" 0 0 0 true [] 1) else none)
      0 (CreateProposal.mk "x" false)).2 =
      (fun k => if k = 0 then some (Proposal.mk "d" 0 0 0 true [] 1) else none : Store) :=
  ((failed_checks_leave_store_unchanged 2
      (fun k => if k = 0 then some (Proposal.mk "d" 0 0 0 true [] 1) else none)
      0 (CreateProposal.mk "x" false) Choice.Approve).2.2.2
    (Proposal.mk "d" 0 0 0 true [] 1) rfl (by decide)).1

/-- C7: `create_proposal` always writes a record with zeroed counters, empty
voted list, owner = caller and the supplied description/activity flag, and
returns whatever was previously stored at the key; nothing is carried over
from an existing record. -/
theorem create_proposal_fresh_record (caller : Principal) (s : Store) (key : Nat)
    (cp : CreateProposal) :
    (create_proposal caller s key cp).1 = s key ∧
    (create_proposal caller s key cp).2 key =
      some (Proposal.mk cp.description 0 0 0 cp.is_active [] caller) := by
  simp [create_proposal, storeInsert]

/-- Stores reachable from the empty map through the exposed mutating
operations, with arbitrary callers, keys, payloads and choices. -/
inductive ReachableStore : Store → Prop where
  | init : ReachableStore (fun _ => none)
  | create (caller : Principal) (s : Store) (key : Nat) (cp : CreateProposal) :
      ReachableStore s → ReachableStore (create_proposal caller s key cp).2
  | edit (caller : Principal) (s : Store) (key : Nat) (cp : CreateProposal) :
      ReachableStore s → ReachableStore (edit_proposal caller s key cp).2
  | close (caller : Principal) (s : Store) (key : Nat) :
      ReachableStore s → ReachableStore (end_proposal caller s key).2
  | voteStep (caller : Principal) (s : Store) (key : Nat) (choice : Choice) :
      ReachableStore s → ReachableStore (vote caller s key choice).2

/-- C10: in every store reachable through the exposed operations, each stored
record satisfies `approve + reject - pass = voted.length` (each successful
vote moves exactly one counter by one in the positive direction of that sum
and records exactly one voter; all other operations preserve counters and
voters). -/
theorem reachable_counter_invariant (s : Store) (hs : ReachableStore s) :
    ∀ k p, s k = some p → p.approve + p.reject - p.pass = (p.voted.length : Int) := by
  induction hs with
  | init =>
    intro k p hk
    simp at hk
  | create caller s0 key cp _ ih =>
    intro k p hk
    have hk' : (if k = key then some (Proposal.mk cp.description 0 0 0 cp.is_active [] caller)
        else s0 k) = some p := hk
    by_cases hkk : k = key
    · rw [if_pos hkk] at hk'
      simp only [Option.some.injEq] at hk'
      subst hk'
      simp
    · rw [if_neg hkk] at hk'
      exact ih k p hk'
  | edit caller s0 key cp _ ih =>
    intro k p hk
    rcases hsk : s0 key with _ | old
    · rw [edit_proposal_absent caller s0 key cp hsk] at hk
      exact ih k p hk
    · by_cases ho : old.owner = caller
      · rw [edit_proposal_ok caller s0 key cp old hsk ho] at hk
        have hk' : (if k = key then some (Proposal.mk cp.description old.approve old.reject
            old.pass cp.is_active old.voted old.owner) else s0 k) = some p := hk
        by_cases hkk : k = key
        · rw [if_pos hkk] at hk'
          simp only [Option.some.injEq] at hk'
          subst hk'
          simpa using ih key old hsk
        · rw [if_neg hkk] at hk'
          exact ih k p hk'
      · rw [edit_proposal_notOwner caller s0 key cp old hsk (by simpa using ho)] at hk
        exact ih k p hk
  | close caller s0 key _ ih =>
    intro k p hk
    rcases hsk : s0 key with _ | old
    · rw [end_proposal_absent caller s0 key hsk] at hk
      exact ih k p hk
    · by_cases ho : old.owner = caller
      · rw [end_proposal_ok caller s0 key old hsk ho] at hk
        have hk' : (if k = key then some { old with is_active := false } else s0 k) =
            some p := hk
        by_cases hkk : k = key
        · rw [if_pos hkk] at hk'
          simp only [Option.some.injEq] at hk'
          subst hk'
          simpa using ih key old hsk
        · rw [if_neg hkk] at hk'
          exact ih k p hk'
      · rw [end_proposal_notOwner caller s0 key old hsk (by simpa using ho)] at hk
        exact ih k p hk
  | voteStep caller s0 key choice _ ih =>
    intro k p hk
    rcases hsk : s0 key with _ | old
    · rw [vote_absent caller s0 key choice hsk] at hk
      exact ih k p hk
    · by_cases hv : caller ∈ old.voted
      · rw [vote_alreadyVoted caller s0 key choice old hsk hv] at hk
        exact ih k p hk
      · cases ha : old.is_active with
        | false =>
          rw [vote_inactive caller s0 key choice old hsk hv ha] at hk
          exact ih k p hk
        | true =>
          rw [vote_ok caller s0 key choice old hsk hv ha] at hk
          have hk' : (if k = key then some (voteUpdate old caller choice) else s0 k) =
              some p := hk
          by_cases hkk : k = key
          · rw [if_pos hkk] at hk'
            simp only [Option.some.injEq] at hk'
            subst hk'
            have hold := ih key old hsk
            cases choice <;> simp [voteUpdate] <;> omega
          · rw [if_neg hkk] at hk'
            exact ih k p hk'

/-- Witness for `reachable_counter_invariant`: create at key 0 by caller 1,
then an Approve vote by caller 2; the stored record satisfies the sum
invariant `1 + 0 - 0 = 1`. -/
theorem reachable_counter_invariant_witness :
    ((vote 2 (create_proposal 1 (fun _ => none) 0 (CreateProposal.mk "d" true)).2 0
      Choice.Approve).2 0 = some (Proposal.mk "d" 1 0 0 true [2] 1)) ∧
    (Proposal.mk "d" 1 0 0 true ([2] : List Principal) 1).approve +
      (Proposal.mk "d" 1 0 0 true ([2] : List Principal) 1).reject -
      (Proposal.mk "d" 1 0 0 true ([2] : List Principal) 1).pass =
      (((Proposal.mk "d" 1 0 0 true ([2] : List Principal) 1).voted.length : Int)) :=
  ⟨rfl, reachable_counter_invariant _
    (ReachableStore.voteStep 2 _ 0 Choice.Approve
      (ReachableStore.create 1 (fun _ => none) 0 (CreateProposal.mk "d" true)
        ReachableStore.init))
    0 (Proposal.mk "d" 1 0 0 true [2] 1) rfl⟩

/-- Modelled from the spec: the Candid `Encode!` step for one `Int` counter of
a `Proposal` (the `Storable` impl delegates to the external candid crate, not
present under `src/`).  Sign byte then magnitude. -/
def encodeInt (i : Int) : List Nat :=
  if i < 0 then [1, i.natAbs] else [0, i.natAbs]

/-- Modelled from the spec: decoder for `encodeInt`; rejects malformed input. -/
def decodeInt : List Nat → Option (Int × List Nat)
  | sg :: m :: rest =>
    if sg = 0 then some ((m : Int), rest)
    else if sg = 1 then some (-(m : Int), rest)
    else none
  | _ => none

/-- Modelled from the spec: encoding of the `is_active` flag. -/
def encodeBool (b : Bool) : List Nat :=
  if b then [1] else [0]

/-- Modelled from the spec: decoder for `encodeBool`; rejects malformed input. -/
def decodeBool : List Nat → Option (Bool × List Nat)
  | n :: rest =>
    if n = 0 then some (false, rest)
    else if n = 1 then some (true, rest)
    else none
  | _ => none

/-- Modelled from the spec: length-prefixed encoding of the description. -/
def encodeString (str : String) : List Nat :=
  str.data.length :: str.data.map Char.toNat

/-- Modelled from the spec: decoder for `encodeString`; rejects input that is
too short or whose code points do not round-trip. -/
def decodeString (l : List Nat) : Option (String × List Nat) :=
  match l with
  | [] => none
  | n :: rest =>
    if n ≤ rest.length then
      let cs := (rest.take n).map Char.ofNat
      if cs.map Char.toNat = rest.take n then
        some (String.mk cs, rest.drop n)
      else none
    else none

/-- Modelled from the spec: length-prefixed encoding of the voter list. -/
def encodeVoted (voted : List Principal) : List Nat :=
  voted.length :: voted

/-- Modelled from the spec: decoder for `encodeVoted`. -/
def decodeVoted (l : List Nat) : Option (List Principal × List Nat) :=
  match l with
  | [] => none
  | n :: rest => if n ≤ rest.length then some (rest.take n, rest.drop n) else none

/-- Modelled from the spec: `Storable::to_bytes` — a self-describing byte
encoding of a full `Proposal` record, field by field in declaration order. -/
def encodeProposal (p : Proposal) : List Nat :=
  encodeString p.description ++ encodeInt p.approve ++ encodeInt p.reject ++
    encodeInt p.pass ++ encodeBool p.is_active ++ encodeVoted p.voted ++ [p.owner]

/-- Modelled from the spec: `Storable::from_bytes` — decodes the fields in
order and rejects any trailing or malformed bytes. -/
def decodeProposal (l : List Nat) : Option Proposal :=
  match decodeString l with
  | none => none
  | some (d, r1) =>
    match decodeInt r1 with
    | none => none
    | some (a, r2) =>
      match decodeInt r2 with
      | none => none
      | some (rj, r3) =>
        match decodeInt r3 with
        | none => none
        | some (ps, r4) =>
          match decodeBool r4 with
          | none => none
          | some (b, r5) =>
            match decodeVoted r5 with
            | none => none
            | some (vs, r6) =>
              match r6 with
              | [o] => some (Proposal.mk d a rj ps b vs o)
              | _ => none

theorem decodeInt_encodeInt (i : Int) (rest : List Nat) :
    decodeInt (encodeInt i ++ rest) = some (i, rest) := by
  by_cases hi : i < 0
  · have h1 : -((i.natAbs : Int)) = i := by omega
    simp only [encodeInt, if_pos hi, List.cons_append, decodeInt]
    simp [h1, abs_of_neg hi]
  · have h1 : ((i.natAbs : Int)) = i := by omega
    simp only [encodeInt, if_neg hi, List.cons_append, decodeInt]
    simp [h1]

theorem decodeBool_encodeBool (b : Bool) (rest : List Nat) :
    decodeBool (encodeBool b ++ rest) = some (b, rest) := by
  cases b <;> simp [encodeBool, decodeBool]

theorem decodeString_encodeString (str : String) (rest : List Nat) :
    decodeString (encodeString str ++ rest) = some (str, rest) := by
  cases str with
  | mk data =>
    have hlen : (data.map Char.toNat).length = data.length := List.length_map data Char.toNat
    have htake : (data.map Char.toNat ++ rest).take data.length = data.map Char.toNat :=
      List.take_left' hlen
    have hdrop : (data.map Char.toNat ++ rest).drop data.length = rest :=
      List.drop_left' hlen
    simp only [encodeString, List.cons_append, decodeString, htake, hdrop]
    rw [if_pos (by simp)]
    have hmap : ((data.map Char.toNat).map Char.ofNat) = data := by
      rw [List.map_map]
      simp [Function.comp_def]
    rw [hmap]
    simp

theorem decodeVoted_encodeVoted (voted : List Principal) (rest : List Nat) :
    decodeVoted (encodeVoted voted ++ rest) = some (voted, rest) := by
  simp only [encodeVoted, List.cons_append, decodeVoted]
  rw [if_pos (by simp), List.take_left, List.drop_left]

/-- C8: serialization round-trips — decoding an encoded record recovers every
field, and re-encoding the decoded value of any byte sequence produced by the
encoder yields the same bytes. -/
theorem proposal_roundtrip (p : Proposal) :
    decodeProposal (encodeProposal p) = some p ∧
    (decodeProposal (encodeProposal p)).map encodeProposal = some (encodeProposal p) := by
  have hdec : decodeProposal (encodeProposal p) = some p := by
    cases p with
    | mk d a rj ps b vs o =>
      simp only [encodeProposal, decodeProposal, List.append_assoc,
        decodeString_encodeString, decodeInt_encodeInt, decodeBool_encodeBool,
        decodeVoted_encodeVoted]
  exact ⟨hdec, by rw [hdec]; rfl⟩

/-- `const MAX_VALUE_SIZE: u32 = 5000`, the `BoundedStorable::MAX_SIZE` bound. -/
def MAX_VALUE_SIZE : Nat := 5000

/-- Error reported by the store when a value's serialization exceeds the cap. -/
inductive StoreError where
  | ValueTooLarge
deriving DecidableEq

/-- Modelled from the spec: the store's `put`, whose size enforcement lives in
the external `ic_stable_structures` crate, not under `src/`.  It rejects any
value whose serialization exceeds `MAX_VALUE_SIZE`, surfacing a store-level
error and leaving the store untouched; otherwise it inserts and returns the
previous value. -/
def storePut (s : Store) (key : Nat) (v : Proposal) :
    Except StoreError (Option Proposal) × Store :=
  if (encodeProposal v).length > MAX_VALUE_SIZE then
    (Except.error StoreError.ValueTooLarge, s)
  else
    (Except.ok (s key), fun k => if k = key then some v else s k)

/-- C9: `put` fails with a surfaced store-level error, without writing
anything, exactly when the serialized size exceeds the 5000-byte cap; and a
store in which every record's serialization is within the cap still satisfies
that bound after any `put`. -/
theorem storePut_size_cap (s : Store) (key : Nat) (v : Proposal) :
    ((encodeProposal v).length > MAX_VALUE_SIZE →
      storePut s key v = (Except.error StoreError.ValueTooLarge, s)) ∧
    ((encodeProposal v).length ≤ MAX_VALUE_SIZE →
      storePut s key v = (Except.ok (s key), fun k => if k = key then some v else s k)) ∧
    ((∀ k p, s k = some p → (encodeProposal p).length ≤ MAX_VALUE_SIZE) →
      ∀ k p, (storePut s key v).2 k = some p →
        (encodeProposal p).length ≤ MAX_VALUE_SIZE) := by
  refine ⟨fun h => by simp [storePut, h], fun h => by simp [storePut, Nat.not_lt.mpr h], ?_⟩
  intro hs k p hk
  rw [storePut] at hk
  by_cases hv : (encodeProposal v).length > MAX_VALUE_SIZE
  · rw [if_pos hv] at hk
    exact hs k p hk
  · rw [if_neg hv] at hk
    have hk' : (if k = key then some v else s k) = some p := hk
    by_cases hkk : k = key
    · rw [if_pos hkk] at hk'
      simp only [Option.some.injEq] at hk'
      subst hk'
      exact Nat.not_lt.mp hv
    · rw [if_neg hkk] at hk'
      exact hs k p hk'

/-- Witness for `storePut_size_cap`: a small record fits under the cap and is
stored; the empty store trivially satisfies the bound beforehand. -/
theorem storePut_size_cap_witness :
    ((encodeProposal (Proposal.mk "d" 0 0 0 true [] 1)).length ≤ MAX_VALUE_SIZE) ∧
    (storePut (fun _ => none) 0 (Proposal.mk "d" 0 0 0 true [] 1) =
      (Except.ok ((fun _ => none : Store) 0),
        fun k => if k = 0 then some (Proposal.mk "d" 0 0 0 true [] 1) else (fun _ => none : Store) k)) :=
  ⟨by decide,
    (storePut_size_cap (fun _ => none) 0 (Proposal.mk "d" 0 0 0 true [] 1)).2.1 (by decide)⟩

end ICPVote
